import Mathlib

set_option maxRecDepth 40000

/-!
Verification development for the oss paging coordinator (oss.cpp).
The definitions below are a shallow embedding of the data model and of the
operations of the coordinator; each definition names the source lines it
translates.  The theorems settle the frozen claims about the program.
-/

namespace Paging

/-- Virtual clock: two shared-memory words, index 0 the seconds word and
index 1 the nanoseconds word. -/
structure Clock where
  secs : Nat
  nanos : Nat
deriving DecidableEq

/-- One carry step: the code subtracts one billion from the nanosecond word
and increments the seconds word whenever the nanosecond word reaches one
billion (the pattern at oss.cpp lines 113-117, 127-131, 723-727). -/
def carry (c : Clock) : Clock :=
  if c.nanos ≥ 1000000000 then { secs := c.secs + 1, nanos := c.nanos - 1000000000 } else c

/-- incrementClock from oss.cpp lines 109-119: advance the nanosecond word by
10000000 and carry. -/
def incrementClock (c : Clock) : Clock := carry { c with nanos := c.nanos + 10000000 }

/-- addOverhead from oss.cpp lines 122-132: advance the nanosecond word by
1000 and carry. -/
def addOverhead (c : Clock) : Clock := carry { c with nanos := c.nanos + 1000 }

/-- The inline hit charge in main, oss.cpp lines 722-727: advance the
nanosecond word by 100 and carry. -/
def addHitCost (c : Clock) : Clock := carry { c with nanos := c.nanos + 100 }

/-- Exact 64-bit composition of the clock into nanoseconds, as computed at
the sites that cast through long long before multiplying (oss.cpp lines 563,
632, 793, 794, 858). -/
def now_ns (c : Clock) : Int := (c.secs : Int) * 1000000000 + (c.nanos : Int)

/-- Two-sided wrap of an integer into the signed 32-bit range: the value an
overflowing int expression evaluates to on the target platform. -/
def wrap32 (x : Int) : Int := (x + 2147483648) % 4294967296 - 2147483648

/-- The post-admission spawn-deadline composition at oss.cpp line 673, which
multiplies the int seconds word by one billion in int arithmetic before any
widening, so the product is truncated to 32 bits. -/
def currTimeNsAdmitSite (c : Clock) : Int :=
  wrap32 ((c.secs : Int) * 1000000000 + (c.nanos : Int))

def MAX_PROC : Nat := 18
def FRAME_NUM : Nat := 256
def PAGE_COUNT : Nat := 32

/-- Process control block entry (oss.cpp struct PCB, lines 47-59).  The
32-entry page table is modelled as a total map from page index to a frame
index or -1. -/
structure PCB where
  occupied : Bool
  pid : Int
  startSeconds : Nat
  startNano : Nat
  pageTable : Nat → Int
  waiting : Bool
  waitPage : Nat
  waitIsWrite : Bool
  waitSec : Nat
  waitNano : Nat

/-- Frame-table entry (oss.cpp struct Frame, lines 62-70). -/
structure Frame where
  occupied : Bool
  dirty : Bool
  ownerPid : Int
  pageNum : Int
  lastRefSec : Nat
  lastRefNano : Nat
deriving DecidableEq

/-- Coordinator state: clock, PCB table, frame table and the fault wait
queue.  std::queue is modelled as a list, push at the back, pop at the
front. -/
structure OssState where
  clock : Clock
  pcb : Nat → PCB
  frames : Nat → Frame
  waitQueue : List Nat

/-- Pointwise array update. -/
def upd {α : Type} (f : Nat → α) (i : Nat) (v : α) : Nat → α :=
  fun j => if j = i then v else f j

/-- Last-reference time of a frame composed into nanoseconds, as in the
victim scan of lruReplacement (long long arithmetic, oss.cpp lines 247,
251). -/
def lastRefNs (fr : Frame) : Int :=
  (fr.lastRefSec : Int) * 1000000000 + (fr.lastRefNano : Int)

/-- First free frame: the scan with break at oss.cpp lines 233-241. -/
def findFreeFrame (f : Nat → Frame) : Option Nat :=
  (List.range FRAME_NUM).find? (fun i => !(f i).occupied)

/-- LRU victim scan at oss.cpp lines 245-257: running minimum of the composed
last-reference time under strict comparison, so the earliest index wins
ties. -/
def victimScan (f : Nat → Frame) : Nat :=
  (List.range FRAME_NUM).foldl
    (fun best i => if lastRefNs (f i) < lastRefNs (f best) then i else best) 0

/-- Linear PCB scan with break for an occupied slot holding the given pid
(the pattern at oss.cpp lines 268-275, 580-587 and 686-694). -/
def findSlotByPid (p : Nat → PCB) (pid : Int) : Option Nat :=
  (List.range MAX_PROC).find? (fun i => (p i).occupied && ((p i).pid == pid))

/-- The install block of lruReplacement, oss.cpp lines 278-287: write the
chosen frame index into the page table of the faulting slot and fill the
frame-table entry from the slot (occupied, owner pid, page number, dirty
from the waiting access mode, last reference from the clock). -/
def lruInstall (st1 : OssState) (slot page j : Nat) : OssState :=
  let p1 := upd st1.pcb slot
    { st1.pcb slot with
        pageTable := upd (st1.pcb slot).pageTable page ((j : Int)) }
  let f1 := upd st1.frames j
    { occupied := true
      dirty := (st1.pcb slot).waitIsWrite
      ownerPid := (st1.pcb slot).pid
      pageNum := (page : Int)
      lastRefSec := st1.clock.secs
      lastRefNano := st1.clock.nanos }
  { st1 with pcb := p1, frames := f1 }

/-- The eviction step of lruReplacement, oss.cpp lines 266-275: clear the
page-table entry of the victim page in the PCB slot i that was found to hold
the victim owner pid. -/
def clearVictim (st : OssState) (i : Nat) (vicPage : Int) : OssState :=
  let cleared := { st.pcb i with
    pageTable := upd (st.pcb i).pageTable vicPage.toNat (-1) }
  { st with pcb := upd st.pcb i cleared }

/-- lruReplacement from oss.cpp lines 227-291: take the first free frame, or
else the LRU victim, clearing the page-table entry of the first occupied PCB
slot holding the victim owner pid; then install the waited-for page into the
chosen frame and into the page table of the faulting slot.  Array accesses
whose index is not structurally bounded are guarded; an out-of-bounds access
yields none (the C code would access outside the table there). -/
def lruReplacement (st : OssState) (slot : Nat) : Option (OssState × Nat) :=
  if slot < MAX_PROC then
    let page := (st.pcb slot).waitPage
    match findFreeFrame st.frames with
    | some j =>
      if page < PAGE_COUNT then some (lruInstall st slot page j, j) else none
    | none =>
      let j := victimScan st.frames
      let victim := (st.frames j).ownerPid
      let vicPage := (st.frames j).pageNum
      match findSlotByPid st.pcb victim with
      | some i =>
        if 0 ≤ vicPage ∧ vicPage < (PAGE_COUNT : Int) then
          if page < PAGE_COUNT then
            some (lruInstall (clearVictim st i vicPage) slot page j, j)
          else none
        else none
      | none =>
        if page < PAGE_COUNT then some (lruInstall st slot page j, j) else none
  else none

/-- One reaped termination, oss.cpp lines 576-610: locate the slot of the
reaped pid, clear the waiting flag (the 32-iteration loop at lines 590-593
assigns waiting = false on every pass and never touches the page table),
free every frame owned by the pid, and mark the slot unoccupied.  The wait
queue is not touched.  When no slot matches, the C code reads an
uninitialized index, so the model yields none. -/
def reapOne (st : OssState) (pid : Int) : Option OssState :=
  match findSlotByPid st.pcb pid with
  | none => none
  | some indx =>
    let p1 := upd st.pcb indx { st.pcb indx with waiting := false }
    let f1 : Nat → Frame := fun i =>
      if i < FRAME_NUM ∧ (st.frames i).ownerPid = pid then
        { st.frames i with occupied := false, ownerPid := -1, pageNum := -1, dirty := false }
      else st.frames i
    let p2 := upd p1 indx { p1 indx with occupied := false }
    some { st with pcb := p2, frames := f1 }

/-- Admission bookkeeping after a successful fork, oss.cpp lines 651-676:
charge one clock increment and fill the first unoccupied PCB slot.  Only the
occupied flag, the pid and the start time are written. -/
def spawnChild (st : OssState) (childPid : Int) : OssState :=
  let c := incrementClock st.clock
  match (List.range MAX_PROC).find? (fun i => !(st.pcb i).occupied) with
  | some i =>
    let entry := { st.pcb i with
                     occupied := true, pid := childPid,
                     startSeconds := c.secs, startNano := c.nanos }
    { st with clock := c, pcb := upd st.pcb i entry }
  | none => { st with clock := c }

/-- A worker request message: pid, address, read or write. -/
structure Msg where
  pid : Int
  address : Nat
  isWrite : Bool
deriving DecidableEq

/-- Outcome of the receive branch: either the fatal exit for an out-of-range
page (with the exit status), or a new state together with the pid granted an
immediate reply (none when the request faulted and was queued). -/
inductive ReqOutcome where
  | fatal (exitCode : Nat) (st : OssState)
  | ok (st : OssState) (reply : Option Int)

def ReqOutcome.state : ReqOutcome → OssState
  | fatal _ st => st
  | ok st _ => st

/-- The hit branch of the request handler, oss.cpp lines 719-762: charge the
overhead plus 100 ns, then update the last-reference time of the frame and,
on a write, set its dirty bit (a read leaves the dirty bit as it was). -/
def hitUpdate (st : OssState) (fN : Nat) (isW : Bool) : OssState :=
  let c1 := addHitCost (addOverhead st.clock)
  let fr := st.frames fN
  { st with clock := c1,
            frames := upd st.frames fN
              { fr with lastRefSec := c1.secs, lastRefNano := c1.nanos,
                        dirty := if isW then true else fr.dirty } }

/-- The fault branch of the request handler, oss.cpp lines 774-782: set the
four wait fields from the request and the clock, mark the slot waiting, and
push it at the back of the wait queue. -/
def faultRecord (st : OssState) (slot page : Nat) (isW : Bool) : OssState :=
  let e := st.pcb slot
  { st with
      pcb := upd st.pcb slot
        { e with waiting := true, waitPage := page, waitIsWrite := isW,
                 waitSec := st.clock.secs, waitNano := st.clock.nanos },
      waitQueue := st.waitQueue ++ [slot] }

/-- The request-handling branch of the simulation loop, oss.cpp lines
680-784: find the sender slot, compute the page, exit fatally when the page
is out of range, otherwise classify as hit (overhead plus 100 ns, touch the
frame, set the dirty bit on a write, grant) or fault (record the wait fields
and push the slot).  none models the undefined behaviour of indexing with a
missing slot or a frame index outside the table. -/
def receiveRequest (st : OssState) (m : Msg) : Option ReqOutcome :=
  let slotOpt := findSlotByPid st.pcb m.pid
  let page := m.address / 1024
  if page ≥ PAGE_COUNT then
    some (.fatal 1 st)
  else
    match slotOpt with
    | none => none
    | some slot =>
      let frame := (st.pcb slot).pageTable page
      if frame ≠ -1 then
        if 0 ≤ frame ∧ frame < (FRAME_NUM : Int) then
          some (.ok (hitUpdate st frame.toNat m.isWrite) (some m.pid))
        else none
      else
        some (.ok (faultRecord st slot page m.isWrite) none)

/-- Outcome of the fault-service branch. -/
inductive ServiceOutcome where
  | empty
  | notReady
  | ub
  | serviced (st : OssState) (frame : Nat) (replyPid : Int)

def ServiceOutcome.isServiced : ServiceOutcome → Bool
  | serviced _ _ _ => true
  | _ => false

/-- The post-replacer block of the fault service, oss.cpp lines 811-845:
write the frame index into the page table of the slot, clear its waiting
flag, re-fill the frame entry (repeating what lruReplacement already wrote),
charge one overhead, and charge a second overhead for a write. -/
def serviceInstall (st1 : OssState) (slot page frame : Nat) (isW : Bool) : OssState :=
  let p1 := upd st1.pcb slot
    { st1.pcb slot with
        pageTable := upd (st1.pcb slot).pageTable page ((frame : Int)),
        waiting := false }
  let f1 := upd st1.frames frame
    { occupied := true, ownerPid := (st1.pcb slot).pid,
      pageNum := (page : Int), dirty := isW,
      lastRefSec := st1.clock.secs, lastRefNano := st1.clock.nanos }
  let st2 := { st1 with pcb := p1, frames := f1 }
  let st3 := { st2 with clock := addOverhead st2.clock }
  if isW then { st3 with clock := addOverhead st3.clock } else st3

/-- The fault-service branch of the simulation loop, oss.cpp lines 787-853:
inspect the queue head, compare the elapsed composed time against the 14 ms
latency plus the 1 ms write surcharge (lines 793-801), and when due pop the
head, run the replacer, apply the installation block, and reply to the pid
of the slot. -/
def serviceHead (st : OssState) : ServiceOutcome :=
  match st.waitQueue with
  | [] => .empty
  | slot :: rest =>
    if slot < MAX_PROC then
      let e := st.pcb slot
      let currTimeNs := now_ns st.clock
      let faultNs : Int := (e.waitSec : Int) * 1000000000 + (e.waitNano : Int)
      let latNs : Int := if e.waitIsWrite then 15000000 else 14000000
      if currTimeNs - faultNs ≥ latNs then
        match lruReplacement { st with waitQueue := rest } slot with
        | none => .ub
        | some (st1, frame) =>
          let page := e.waitPage
          if page < PAGE_COUNT then
            .serviced (serviceInstall st1 slot page frame e.waitIsWrite) frame
              (st1.pcb slot).pid
          else .ub
      else .notReady
    else .ub

/-- The queue invariant of the specification: slot indices occur at most
once in the wait queue, every queued slot is a legal index, and a legal slot
is queued exactly when its waiting flag is set. -/
def queueInv (st : OssState) : Prop :=
  st.waitQueue.Nodup ∧
  (∀ s ∈ st.waitQueue, s < MAX_PROC) ∧
  (∀ s ∈ List.range MAX_PROC, (s ∈ st.waitQueue ↔ (st.pcb s).waiting = true))

/-- One table-mutating step of a top-level loop iteration.  The reap case
carries the protocol fact that a worker never terminates while blocked on a
fault reply, and the receive case the fact that a blocked worker sends no
further request. -/
inductive LoopStep : OssState → OssState → Prop
  | tick (st : OssState) : LoopStep st { st with clock := incrementClock st.clock }
  | reap (st st' : OssState) (pid : Int)
      (hre : reapOne st pid = some st')
      (hnw : ∀ k, findSlotByPid st.pcb pid = some k → (st.pcb k).waiting = false) :
      LoopStep st st'
  | spawn (st : OssState) (childPid : Int) : LoopStep st (spawnChild st childPid)
  | receive (st : OssState) (m : Msg) (out : ReqOutcome)
      (hrc : receiveRequest st m = some out)
      (hnw : ∀ k, findSlotByPid st.pcb m.pid = some k → (st.pcb k).waiting = false) :
      LoopStep st out.state
  | service (st st' : OssState) (frame : Nat) (replyPid : Int)
      (hsv : serviceHead st = .serviced st' frame replyPid) :
      LoopStep st st'

/-- Outcome of validating one numeric option value. -/
inductive ParseOutcome where
  | ok (v : Nat)
  | usageExit (exitCode : Nat)
deriving DecidableEq

/-- Handling of the -n value, oss.cpp lines 417-424: a value above 100 only
prints a warning and clamps the option to 100; the run continues. -/
def parseNValue (v : Nat) : ParseOutcome := if v > 100 then .ok 100 else .ok v

/-- Handling of the -s value, oss.cpp lines 457-464: a value above 18 prints
an error with usage and returns EXIT_FAILURE. -/
def parseSValue (v : Nat) : ParseOutcome := if v > 18 then .usageExit 1 else .ok v

/-- Startup phases of main in source order, oss.cpp lines 332-556: the
message queue is created at line 351 before the option loop at line 378;
shared memory (line 522) and the tables (lines 525-556) follow parsing. -/
inductive InitStep where
  | createMsgQueue
  | parseArgs
  | setupSharedMemory
  | initTables
deriving DecidableEq

/-- The order in which main performs its startup phases. -/
def ossInitOrder : List InitStep :=
  [.createMsgQueue, .parseArgs, .setupSharedMemory, .initTables]

/-! ### Concrete states used to instantiate the theorems -/

/-- An empty PCB entry, as initialized at oss.cpp lines 527-543. -/
def pcbInit : PCB :=
  { occupied := false, pid := -1, startSeconds := 0, startNano := 0,
    pageTable := fun _ => -1, waiting := false, waitPage := 0,
    waitIsWrite := false, waitSec := 0, waitNano := 0 }

/-- An empty frame, as initialized at oss.cpp lines 548-556. -/
def frameInit : Frame :=
  { occupied := false, dirty := false, ownerPid := -1, pageNum := -1,
    lastRefSec := 0, lastRefNano := 0 }

/-- State for C9: empty tables, clock at zero. -/
def exC9St : OssState :=
  { clock := ⟨0, 0⟩, pcb := fun _ => pcbInit, frames := fun _ => frameInit,
    waitQueue := [] }

/-- State for C5: slot 0 holds pid 42 with page 0 resident in frame 5. -/
def exC5St : OssState :=
  { clock := ⟨0, 500⟩,
    pcb := upd (fun _ => pcbInit) 0
      { pcbInit with occupied := true, pid := 42,
                     pageTable := upd (fun _ => (-1 : Int)) 0 5 },
    frames := upd (fun _ => frameInit) 5
      { frameInit with occupied := true, ownerPid := 42, pageNum := 0 },
    waitQueue := [] }

/-- State for C6: slot 0 holds pid 42 waiting on page 0 since time zero, the
clock is at 20 ms, all frames free. -/
def exC6St : OssState :=
  { clock := ⟨0, 20000000⟩,
    pcb := upd (fun _ => pcbInit) 0
      { pcbInit with occupied := true, pid := 42, waiting := true,
                     waitPage := 0, waitIsWrite := false, waitSec := 0, waitNano := 0 },
    frames := fun _ => frameInit,
    waitQueue := [0] }

/-- State for C3: slot 0 holds pid 42 waiting on page 3, all frames free. -/
def exC3St : OssState :=
  { clock := ⟨0, 7⟩,
    pcb := upd (fun _ => pcbInit) 0
      { pcbInit with occupied := true, pid := 42, waiting := true,
                     waitPage := 3, waitIsWrite := false, waitSec := 0, waitNano := 0 },
    frames := fun _ => frameInit,
    waitQueue := [0] }

/-- State for C2: slot 0 holds pid 100 with page 3 resident in frame 7. -/
def exC2St : OssState :=
  { clock := ⟨0, 7⟩,
    pcb := upd (fun _ => pcbInit) 0
      { pcbInit with occupied := true, pid := 100,
                     pageTable := upd (fun _ => (-1 : Int)) 3 7 },
    frames := upd (fun _ => frameInit) 7
      { frameInit with occupied := true, ownerPid := 100, pageNum := 3 },
    waitQueue := [] }

/-- State for the C1 counterexample: slot 0 holds pid 100 and is waiting, so
it sits in the wait queue; the queue invariant holds. -/
def exC1St : OssState :=
  { clock := ⟨0, 7⟩,
    pcb := upd (fun _ => pcbInit) 0
      { pcbInit with occupied := true, pid := 100, waiting := true,
                     waitPage := 3, waitIsWrite := false, waitSec := 0, waitNano := 0 },
    frames := fun _ => frameInit,
    waitQueue := [0] }

/-- State for the C1 witness: slot 0 holds pid 50 and is not waiting; the
queue is empty. -/
def exC1ReapSt : OssState :=
  { clock := ⟨0, 7⟩,
    pcb := upd (fun _ => pcbInit) 0
      { pcbInit with occupied := true, pid := 50 },
    frames := fun _ => frameInit,
    waitQueue := [] }

/-- State for the C7 witness, eviction side: every frame is occupied by pid 7
page 1, frame 3 has the strictly smallest last-reference time; slot 1 holds
pid 7, slot 0 holds pid 42 waiting on page 3. -/
def exC7Full : OssState :=
  { clock := ⟨1, 0⟩,
    pcb := upd (upd (fun _ => pcbInit) 0
        { pcbInit with occupied := true, pid := 42, waiting := true,
                       waitPage := 3, waitIsWrite := true, waitSec := 0, waitNano := 0 }) 1
      { pcbInit with occupied := true, pid := 7,
                     pageTable := upd (fun _ => (-1 : Int)) 1 3 },
    frames := fun i =>
      { occupied := true, dirty := false, ownerPid := 7, pageNum := 1,
        lastRefSec := 0, lastRefNano := if i = 3 then 100 else 500 + i },
    waitQueue := [0] }

/-- State for the C7 witness, free-frame side: frames 0 and 1 are occupied,
the rest are free; slot 0 holds pid 42 waiting on page 3. -/
def exC7Free : OssState :=
  { clock := ⟨1, 0⟩,
    pcb := upd (fun _ => pcbInit) 0
      { pcbInit with occupied := true, pid := 42, waiting := true,
                     waitPage := 3, waitIsWrite := false, waitSec := 0, waitNano := 0 },
    frames := fun i =>
      if i < 2 then
        { occupied := true, dirty := false, ownerPid := 42, pageNum := (i : Int),
          lastRefSec := 0, lastRefNano := 0 }
      else frameInit,
    waitQueue := [0] }

/-- State for the C10 witness: same shape as the eviction witness. -/
def exC10St : OssState :=
  { clock := ⟨1, 0⟩,
    pcb := upd (upd (fun _ => pcbInit) 0
        { pcbInit with occupied := true, pid := 42, waiting := true,
                       waitPage := 9, waitIsWrite := false, waitSec := 0, waitNano := 0 }) 1
      { pcbInit with occupied := true, pid := 7,
                     pageTable := upd (fun _ => (-1 : Int)) 1 5 },
    frames := fun i =>
      { occupied := true, dirty := false, ownerPid := 7, pageNum := 1,
        lastRefSec := 0, lastRefNano := if i = 5 then 100 else 500 + i },
    waitQueue := [0] }

/-! ### Helper lemmas -/

theorem upd_self {α : Type} (f : Nat → α) (i : Nat) (v : α) : upd f i v i = v := by
  simp [upd]

theorem upd_ne {α : Type} (f : Nat → α) (i : Nat) (v : α) {j : Nat} (h : j ≠ i) :
    upd f i v j = f j := by
  simp [upd, h]

theorem now_ns_carry (c : Clock) : now_ns (carry c) = now_ns c := by
  unfold carry now_ns
  split
  · dsimp only
    omega
  · rfl

theorem carry_nanos_lt {c : Clock} (h : c.nanos < 2000000000) :
    (carry c).nanos < 1000000000 := by
  unfold carry
  split
  · show c.nanos - 1000000000 < 1000000000
    omega
  · omega

theorem now_ns_addOverhead (c : Clock) : now_ns (addOverhead c) = now_ns c + 1000 := by
  unfold addOverhead
  rw [now_ns_carry]
  unfold now_ns
  dsimp only
  omega

theorem now_ns_addHitCost (c : Clock) : now_ns (addHitCost c) = now_ns c + 100 := by
  unfold addHitCost
  rw [now_ns_carry]
  unfold now_ns
  dsimp only
  omega

theorem addOverhead_nanos_lt {c : Clock} (h : c.nanos < 1000000000) :
    (addOverhead c).nanos < 1000000000 := by
  unfold addOverhead
  apply carry_nanos_lt
  show c.nanos + 1000 < 2000000000
  omega

theorem addHitCost_nanos_lt {c : Clock} (h : c.nanos < 1000000000) :
    (addHitCost c).nanos < 1000000000 := by
  unfold addHitCost
  apply carry_nanos_lt
  show c.nanos + 100 < 2000000000
  omega

theorem find?_range_first {p : Nat → Bool} :
    ∀ {n j : Nat}, (List.range n).find? p = some j →
      j < n ∧ p j = true ∧ ∀ i < j, p i = false := by
  intro n
  induction n with
  | zero => intro j h; simp at h
  | succ n ih =>
    intro j h
    rw [List.range_succ, List.find?_append] at h
    cases hfind : (List.range n).find? p with
    | some j' =>
      rw [hfind] at h
      simp only [Option.or] at h
      cases h
      have hj := ih hfind
      exact ⟨Nat.lt_succ_of_lt hj.1, hj.2.1, hj.2.2⟩
    | none =>
      rw [hfind] at h
      simp only [Option.or] at h
      rw [List.find?_singleton] at h
      by_cases hp : p n = true
      · rw [if_pos hp] at h
        cases h
        refine ⟨Nat.lt_succ_self n, hp, ?_⟩
        intro i hi
        have := List.find?_eq_none.mp hfind i (List.mem_range.mpr hi)
        simpa using this
      · rw [if_neg hp] at h
        cases h

theorem find?_range_of_none {p : Nat → Bool} {n : Nat}
    (h : (List.range n).find? p = none) : ∀ i < n, p i = false := by
  intro i hi
  have := List.find?_eq_none.mp h i (List.mem_range.mpr hi)
  simpa using this

theorem findSlotByPid_spec {p : Nat → PCB} {pid : Int} {k : Nat}
    (h : findSlotByPid p pid = some k) :
    k < MAX_PROC ∧ (p k).occupied = true ∧ (p k).pid = pid := by
  unfold findSlotByPid at h
  obtain ⟨hk, hpred, -⟩ := find?_range_first h
  rw [Bool.and_eq_true, beq_iff_eq] at hpred
  exact ⟨hk, hpred.1, hpred.2⟩

/-- Fold kernel of the victim scan over the first n frames. -/
def vfold (f : Nat → Frame) (n : Nat) : Nat :=
  (List.range n).foldl
    (fun best i => if lastRefNs (f i) < lastRefNs (f best) then i else best) 0

theorem victimScan_eq_vfold (f : Nat → Frame) : victimScan f = vfold f FRAME_NUM := rfl

theorem vfold_succ (f : Nat → Frame) (n : Nat) :
    vfold f (n + 1) =
      if lastRefNs (f n) < lastRefNs (f (vfold f n)) then n else vfold f n := by
  unfold vfold
  rw [List.range_succ, List.foldl_append]
  rfl

theorem vfold_zero (f : Nat → Frame) : vfold f 0 = 0 := rfl

theorem vfold_spec (f : Nat → Frame) :
    ∀ n, (0 < n → vfold f n < n) ∧
      (∀ i < n, lastRefNs (f (vfold f n)) ≤ lastRefNs (f i)) ∧
      (∀ i < vfold f n, lastRefNs (f i) > lastRefNs (f (vfold f n))) := by
  intro n
  induction n with
  | zero =>
    refine ⟨by omega, by omega, ?_⟩
    rw [vfold_zero]
    omega
  | succ n ih =>
    obtain ⟨ih1, ih2, ih3⟩ := ih
    rw [vfold_succ]
    by_cases hlt : lastRefNs (f n) < lastRefNs (f (vfold f n))
    · rw [if_pos hlt]
      refine ⟨fun _ => Nat.lt_succ_self n, ?_, ?_⟩
      · intro i hi
        rcases Nat.lt_succ_iff_lt_or_eq.mp hi with hi' | hi'
        · exact le_of_lt (lt_of_lt_of_le hlt (ih2 i hi'))
        · rw [hi']
      · intro i hi
        exact lt_of_lt_of_le hlt (ih2 i hi)
    · rw [if_neg hlt]
      refine ⟨?_, ?_, ih3⟩
      · intro _
        rcases Nat.eq_zero_or_pos n with hn | hn
        · rw [hn, vfold_zero]; omega
        · exact Nat.lt_succ_of_lt (ih1 hn)
      · intro i hi
        rcases Nat.lt_succ_iff_lt_or_eq.mp hi with hi' | hi'
        · exact ih2 i hi'
        · rw [hi']; omega

theorem upd_pt_preserve (p : Nat → PCB) (i : Nat) (pt : Nat → Int) (s : Nat) :
    (upd p i { p i with pageTable := pt } s).pid = (p s).pid ∧
    (upd p i { p i with pageTable := pt } s).occupied = (p s).occupied ∧
    (upd p i { p i with pageTable := pt } s).waiting = (p s).waiting ∧
    (upd p i { p i with pageTable := pt } s).waitPage = (p s).waitPage ∧
    (upd p i { p i with pageTable := pt } s).waitIsWrite = (p s).waitIsWrite ∧
    (upd p i { p i with pageTable := pt } s).waitSec = (p s).waitSec ∧
    (upd p i { p i with pageTable := pt } s).waitNano = (p s).waitNano := by
  by_cases hs : s = i
  · subst hs
    rw [upd_self]
    exact ⟨rfl, rfl, rfl, rfl, rfl, rfl, rfl⟩
  · rw [upd_ne _ _ _ hs]
    exact ⟨rfl, rfl, rfl, rfl, rfl, rfl, rfl⟩

theorem lruInstall_frames_self (st1 : OssState) (slot page j : Nat) :
    (lruInstall st1 slot page j).frames j =
      { occupied := true, dirty := (st1.pcb slot).waitIsWrite,
        ownerPid := (st1.pcb slot).pid, pageNum := (page : Int),
        lastRefSec := st1.clock.secs, lastRefNano := st1.clock.nanos } := by
  simp only [lruInstall]
  exact upd_self _ _ _

theorem lruInstall_clock (st1 : OssState) (slot page j : Nat) :
    (lruInstall st1 slot page j).clock = st1.clock := by
  simp only [lruInstall]

theorem lruInstall_waitQueue (st1 : OssState) (slot page j : Nat) :
    (lruInstall st1 slot page j).waitQueue = st1.waitQueue := by
  simp only [lruInstall]

theorem lruInstall_pageTable_self (st1 : OssState) (slot page j : Nat) :
    ((lruInstall st1 slot page j).pcb slot).pageTable page = (j : Int) := by
  simp only [lruInstall, upd_self]

theorem lruInstall_pcb_preserve (st1 : OssState) (slot page j s : Nat) :
    ((lruInstall st1 slot page j).pcb s).pid = (st1.pcb s).pid ∧
    ((lruInstall st1 slot page j).pcb s).occupied = (st1.pcb s).occupied ∧
    ((lruInstall st1 slot page j).pcb s).waiting = (st1.pcb s).waiting ∧
    ((lruInstall st1 slot page j).pcb s).waitPage = (st1.pcb s).waitPage ∧
    ((lruInstall st1 slot page j).pcb s).waitIsWrite = (st1.pcb s).waitIsWrite ∧
    ((lruInstall st1 slot page j).pcb s).waitSec = (st1.pcb s).waitSec ∧
    ((lruInstall st1 slot page j).pcb s).waitNano = (st1.pcb s).waitNano := by
  simp only [lruInstall]
  exact upd_pt_preserve st1.pcb slot _ s

theorem lruInstall_pcb_ne (st1 : OssState) (slot page j : Nat) {s : Nat} (hs : s ≠ slot) :
    (lruInstall st1 slot page j).pcb s = st1.pcb s := by
  simp only [lruInstall]
  exact upd_ne _ _ _ hs

theorem lruInstall_frames_ne (st1 : OssState) (slot page j : Nat) {i : Nat} (hi : i ≠ j) :
    (lruInstall st1 slot page j).frames i = st1.frames i := by
  simp only [lruInstall]
  exact upd_ne _ _ _ hi

theorem clearVictim_clock (st : OssState) (i : Nat) (v : Int) :
    (clearVictim st i v).clock = st.clock := by
  simp only [clearVictim]

theorem clearVictim_frames (st : OssState) (i : Nat) (v : Int) :
    (clearVictim st i v).frames = st.frames := by
  simp only [clearVictim]

theorem clearVictim_waitQueue (st : OssState) (i : Nat) (v : Int) :
    (clearVictim st i v).waitQueue = st.waitQueue := by
  simp only [clearVictim]

theorem clearVictim_pcb_preserve (st : OssState) (i : Nat) (v : Int) (s : Nat) :
    ((clearVictim st i v).pcb s).pid = (st.pcb s).pid ∧
    ((clearVictim st i v).pcb s).occupied = (st.pcb s).occupied ∧
    ((clearVictim st i v).pcb s).waiting = (st.pcb s).waiting ∧
    ((clearVictim st i v).pcb s).waitIsWrite = (st.pcb s).waitIsWrite := by
  simp only [clearVictim]
  obtain ⟨h1, h2, h3, -, h5, -, -⟩ := upd_pt_preserve st.pcb i
    (upd (st.pcb i).pageTable v.toNat (-1)) s
  exact ⟨h1, h2, h3, h5⟩

theorem clearVictim_pageTable_self (st : OssState) (i : Nat) (v : Int) :
    ((clearVictim st i v).pcb i).pageTable v.toNat = -1 := by
  simp only [clearVictim, upd_self]

theorem hitUpdate_pcb (st : OssState) (fN : Nat) (isW : Bool) :
    (hitUpdate st fN isW).pcb = st.pcb := by
  simp only [hitUpdate]

theorem hitUpdate_waitQueue (st : OssState) (fN : Nat) (isW : Bool) :
    (hitUpdate st fN isW).waitQueue = st.waitQueue := by
  simp only [hitUpdate]

theorem hitUpdate_clock (st : OssState) (fN : Nat) (isW : Bool) :
    (hitUpdate st fN isW).clock = addHitCost (addOverhead st.clock) := by
  simp only [hitUpdate]

theorem hitUpdate_frames_self (st : OssState) (fN : Nat) (isW : Bool) :
    (hitUpdate st fN isW).frames fN =
      { st.frames fN with
          lastRefSec := (addHitCost (addOverhead st.clock)).secs,
          lastRefNano := (addHitCost (addOverhead st.clock)).nanos,
          dirty := if isW then true else (st.frames fN).dirty } := by
  simp only [hitUpdate]
  exact upd_self _ _ _

theorem lruInstall_case (st st1 : OssState) (slot j : Nat)
    (hslot : slot < MAX_PROC) (hpage : (st.pcb slot).waitPage < PAGE_COUNT)
    (hpcb : ∀ s, (st1.pcb s).pid = (st.pcb s).pid ∧
                 (st1.pcb s).occupied = (st.pcb s).occupied ∧
                 (st1.pcb s).waiting = (st.pcb s).waiting ∧
                 (st1.pcb s).waitIsWrite = (st.pcb s).waitIsWrite)
    (hclock : st1.clock = st.clock) (hqueue : st1.waitQueue = st.waitQueue) :
    slot < MAX_PROC ∧ (st.pcb slot).waitPage < PAGE_COUNT ∧
    ((lruInstall st1 slot (st.pcb slot).waitPage j).frames j).occupied = true ∧
    ((lruInstall st1 slot (st.pcb slot).waitPage j).frames j).ownerPid = (st.pcb slot).pid ∧
    ((lruInstall st1 slot (st.pcb slot).waitPage j).frames j).pageNum
        = ((st.pcb slot).waitPage : Int) ∧
    ((lruInstall st1 slot (st.pcb slot).waitPage j).frames j).dirty
        = (st.pcb slot).waitIsWrite ∧
    ((lruInstall st1 slot (st.pcb slot).waitPage j).frames j).lastRefSec = st.clock.secs ∧
    ((lruInstall st1 slot (st.pcb slot).waitPage j).frames j).lastRefNano = st.clock.nanos ∧
    (((lruInstall st1 slot (st.pcb slot).waitPage j).pcb slot).pageTable
        (st.pcb slot).waitPage = (j : Int)) ∧
    (lruInstall st1 slot (st.pcb slot).waitPage j).clock = st.clock ∧
    (lruInstall st1 slot (st.pcb slot).waitPage j).waitQueue = st.waitQueue ∧
    (∀ s, ((lruInstall st1 slot (st.pcb slot).waitPage j).pcb s).waiting
              = (st.pcb s).waiting ∧
          ((lruInstall st1 slot (st.pcb slot).waitPage j).pcb s).occupied
              = (st.pcb s).occupied ∧
          ((lruInstall st1 slot (st.pcb slot).waitPage j).pcb s).pid = (st.pcb s).pid) := by
  refine ⟨hslot, hpage, ?_, ?_, ?_, ?_, ?_, ?_,
    lruInstall_pageTable_self st1 slot (st.pcb slot).waitPage j, ?_, ?_, ?_⟩
  · rw [lruInstall_frames_self]
  · rw [lruInstall_frames_self]
    exact (hpcb slot).1
  · rw [lruInstall_frames_self]
  · rw [lruInstall_frames_self]
    exact (hpcb slot).2.2.2
  · rw [lruInstall_frames_self]
    show st1.clock.secs = st.clock.secs
    rw [hclock]
  · rw [lruInstall_frames_self]
    show st1.clock.nanos = st.clock.nanos
    rw [hclock]
  · rw [lruInstall_clock, hclock]
  · rw [lruInstall_waitQueue, hqueue]
  · intro s
    obtain ⟨h1, h2, h3, -, -, -, -⟩ := lruInstall_pcb_preserve st1 slot (st.pcb slot).waitPage j s
    exact ⟨h3.trans (hpcb s).2.2.1, h2.trans (hpcb s).2.1, h1.trans (hpcb s).1⟩

theorem lru_some_spec (st : OssState) (slot : Nat) (st' : OssState) (j : Nat)
    (h : lruReplacement st slot = some (st', j)) :
    slot < MAX_PROC ∧ (st.pcb slot).waitPage < PAGE_COUNT ∧
    (st'.frames j).occupied = true ∧
    (st'.frames j).ownerPid = (st.pcb slot).pid ∧
    (st'.frames j).pageNum = ((st.pcb slot).waitPage : Int) ∧
    (st'.frames j).dirty = (st.pcb slot).waitIsWrite ∧
    (st'.frames j).lastRefSec = st.clock.secs ∧
    (st'.frames j).lastRefNano = st.clock.nanos ∧
    ((st'.pcb slot).pageTable (st.pcb slot).waitPage = (j : Int)) ∧
    st'.clock = st.clock ∧
    st'.waitQueue = st.waitQueue ∧
    (∀ s, (st'.pcb s).waiting = (st.pcb s).waiting ∧
          (st'.pcb s).occupied = (st.pcb s).occupied ∧
          (st'.pcb s).pid = (st.pcb s).pid) := by
  simp only [lruReplacement] at h
  by_cases hslot : slot < MAX_PROC
  case neg =>
    rw [if_neg hslot] at h
    exact Option.noConfusion h
  rw [if_pos hslot] at h
  cases hff : findFreeFrame st.frames with
  | some jf =>
    rw [hff] at h
    dsimp only at h
    by_cases hpage : (st.pcb slot).waitPage < PAGE_COUNT
    case neg =>
      rw [if_neg hpage] at h
      exact Option.noConfusion h
    rw [if_pos hpage] at h
    rw [Option.some.injEq, Prod.mk.injEq] at h
    obtain ⟨hst, hj⟩ := h
    subst hst
    subst hj
    exact lruInstall_case st st slot jf hslot hpage
      (fun s => ⟨rfl, rfl, rfl, rfl⟩) rfl rfl
  | none =>
    rw [hff] at h
    dsimp only at h
    cases hfind : findSlotByPid st.pcb ((st.frames (victimScan st.frames)).ownerPid) with
    | some i =>
      rw [hfind] at h
      dsimp only at h
      by_cases hvp : 0 ≤ (st.frames (victimScan st.frames)).pageNum ∧
          (st.frames (victimScan st.frames)).pageNum < (PAGE_COUNT : Int)
      case neg =>
        rw [if_neg hvp] at h
        exact Option.noConfusion h
      rw [if_pos hvp] at h
      by_cases hpage : (st.pcb slot).waitPage < PAGE_COUNT
      case neg =>
        rw [if_neg hpage] at h
        exact Option.noConfusion h
      rw [if_pos hpage] at h
      rw [Option.some.injEq, Prod.mk.injEq] at h
      obtain ⟨hst, hj⟩ := h
      subst hst
      subst hj
      exact lruInstall_case st _ slot (victimScan st.frames) hslot hpage
        (clearVictim_pcb_preserve st i _)
        (clearVictim_clock st i _) (clearVictim_waitQueue st i _)
    | none =>
      rw [hfind] at h
      dsimp only at h
      by_cases hpage : (st.pcb slot).waitPage < PAGE_COUNT
      case neg =>
        rw [if_neg hpage] at h
        exact Option.noConfusion h
      rw [if_pos hpage] at h
      rw [Option.some.injEq, Prod.mk.injEq] at h
      obtain ⟨hst, hj⟩ := h
      subst hst
      subst hj
      exact lruInstall_case st st slot (victimScan st.frames) hslot hpage
        (fun s => ⟨rfl, rfl, rfl, rfl⟩) rfl rfl

/-! ### Claim theorems -/

/-- Claim C4: the claim asserts that every composition of the clock into
nanoseconds is the exact 64-bit value secs * 10^9 + nanos, in particular at
the post-admission spawn-deadline computation.  The sites that cast through
long long are exact (definition now_ns), but the post-admission site at
oss.cpp line 673 multiplies the int seconds word in 32-bit arithmetic: at
3 seconds on the clock it yields -1294967296 instead of 3000000000. -/
theorem C4_spawn_deadline_truncation :
    now_ns ⟨3, 0⟩ = 3000000000 ∧
    currTimeNsAdmitSite ⟨3, 0⟩ = -1294967296 ∧
    currTimeNsAdmitSite ⟨3, 0⟩ ≠ now_ns ⟨3, 0⟩ := by
  refine ⟨by decide, by decide, by decide⟩

/-- Claim C9: a received request whose computed page (address / 1024) is at
least 32 makes the coordinator exit with status 1, and the returned state is
the input state itself, so no frame-table or PCB mutation from that request
is observable. -/
theorem C9_fatal_on_bad_page (st : OssState) (m : Msg)
    (h : 32 ≤ m.address / 1024) :
    receiveRequest st m = some (.fatal 1 st) := by
  have hge : m.address / 1024 ≥ PAGE_COUNT := h
  simp only [receiveRequest]
  rw [if_pos hge]

/-- Witness for C9 at address 33000 (page 32). -/
theorem C9_witness : receiveRequest exC9St ⟨42, 33000, false⟩ = some (.fatal 1 exC9St) :=
  C9_fatal_on_bad_page exC9St ⟨42, 33000, false⟩ (by decide)

/-- Counterexample for claim C8: a total-worker value of 101 does not make
the coordinator exit; the option is clamped to 100 and parsing succeeds.
Moreover the message queue is created before the option loop runs, so even a
cap error cannot exit prior to all resource initialization. -/
theorem C8_counterexample :
    parseNValue 101 = ParseOutcome.ok 100 ∧
    List.indexOf InitStep.createMsgQueue ossInitOrder <
      List.indexOf InitStep.parseArgs ossInitOrder := by
  refine ⟨by decide, by decide⟩

/-- Claim C8 as amended: a concurrency value s above 18 is reported with
usage and exits with status 1, while a total value n above 100 is only
clamped to 100 and the run continues; the message queue is already created
before parsing, and shared memory and the tables are only set up after
parsing succeeds. -/
theorem C8_caps (n s : Nat) (hn : 100 < n) (hs : 18 < s) :
    parseNValue n = ParseOutcome.ok 100 ∧
    parseSValue s = ParseOutcome.usageExit 1 ∧
    List.indexOf InitStep.createMsgQueue ossInitOrder <
      List.indexOf InitStep.parseArgs ossInitOrder ∧
    List.indexOf InitStep.parseArgs ossInitOrder <
      List.indexOf InitStep.setupSharedMemory ossInitOrder := by
  refine ⟨?_, ?_, by decide, by decide⟩
  · unfold parseNValue
    rw [if_pos hn]
  · unfold parseSValue
    rw [if_pos hs]

/-- Witness for the amended C8 at n = 101 and s = 19. -/
theorem C8_witness :
    parseNValue 101 = ParseOutcome.ok 100 ∧
    parseSValue 19 = ParseOutcome.usageExit 1 ∧
    List.indexOf InitStep.createMsgQueue ossInitOrder <
      List.indexOf InitStep.parseArgs ossInitOrder ∧
    List.indexOf InitStep.parseArgs ossInitOrder <
      List.indexOf InitStep.setupSharedMemory ossInitOrder :=
  C8_caps 101 19 (by decide) (by decide)

/-- Claim C2, evaluated at the failing input: reaping pid 100, which owns
frame 7 through page 3 of slot 0, does clear the frame (occupied false,
owner and page reset) and does release the slot (occupied and waiting
cleared), but the page-table entry of page 3 is left at 7 instead of being
reset to -1: the 32-iteration loop at oss.cpp lines 590-593 assigns
waiting = false instead of clearing the page table. -/
theorem C2_reap_keeps_pageTable :
    (reapOne exC2St 100).map
      (fun s => ((s.pcb 0).pageTable 3, (s.pcb 0).occupied, (s.pcb 0).waiting,
                 (s.frames 7).occupied, (s.frames 7).ownerPid, (s.frames 7).pageNum))
      = some (7, false, false, false, -1, -1) := by
  decide

/-- Counterexample for claim C1: in a state satisfying the queue invariant
where the waiting worker in slot 0 (pid 100) is reaped, the slot is not
removed from the wait queue: afterwards the queue still contains slot 0
while its waiting flag is false, so the invariant is broken. -/
theorem C1_counterexample :
    queueInv exC1St ∧
    (reapOne exC1St 100).map (fun s => (s.waitQueue.contains 0, (s.pcb 0).waiting))
      = some (true, false) ∧
    ¬ queueInv ((reapOne exC1St 100).getD exC1St) := by
  unfold queueInv
  refine ⟨by decide, by decide, by decide⟩

/-- Counterexample for claim C3: calling the replacer on slot 0 waiting for
page 3 with all frames free already installs the page before the simulation
loop does anything: the returned state has frame 0 occupied by pid 42 page 3
and the page table of slot 0 maps page 3 to frame 0. -/
theorem C3_counterexample :
    (lruReplacement exC3St 0).map
      (fun r => ((r.1.frames 0).occupied, (r.1.frames 0).ownerPid,
                 (r.1.frames 0).pageNum, (r.1.pcb 0).pageTable 3, r.2))
      = some (true, 42, 3, 0, 0) := by
  decide

set_option maxRecDepth 4000 in
/-- Claim C5: for every received request whose page is mapped in the sender
page table, the clock advances by exactly 1000 ns of overhead plus 100 ns
and stays normalized, the frame last-reference time equals the clock after
that charge, the dirty bit becomes true on a write and is unchanged on a
read, the PCB table (hence the page-table mapping) is unchanged, and a
granted reply is sent to the requesting pid. -/
theorem C5_hit (st : OssState) (m : Msg) (slot : Nat) (f : Int)
    (hs : findSlotByPid st.pcb m.pid = some slot)
    (hpage : m.address / 1024 < 32)
    (hmap : (st.pcb slot).pageTable (m.address / 1024) = f)
    (hf0 : 0 ≤ f) (hfN : f < 256)
    (hnorm : st.clock.nanos < 1000000000) :
    ∃ st', receiveRequest st m = some (.ok st' (some m.pid)) ∧
      now_ns st'.clock = now_ns st.clock + 1100 ∧
      st'.clock.nanos < 1000000000 ∧
      (st'.frames f.toNat).lastRefSec = st'.clock.secs ∧
      (st'.frames f.toNat).lastRefNano = st'.clock.nanos ∧
      (st'.frames f.toNat).dirty = (if m.isWrite then true else (st.frames f.toNat).dirty) ∧
      st'.pcb = st.pcb ∧
      st'.waitQueue = st.waitQueue := by
  have hne : ¬ (m.address / 1024 ≥ PAGE_COUNT) := by
    unfold PAGE_COUNT
    omega
  have hfr : f ≠ -1 := by omega
  have hlt : f < (FRAME_NUM : Int) := by
    unfold FRAME_NUM
    exact_mod_cast hfN
  have heq : receiveRequest st m = some (.ok (hitUpdate st f.toNat m.isWrite) (some m.pid)) := by
    simp only [receiveRequest]
    rw [if_neg hne, hs]
    simp only [hmap]
    rw [if_pos hfr, if_pos ⟨hf0, hlt⟩]
  refine ⟨hitUpdate st f.toNat m.isWrite, heq, ?_, ?_, ?_, ?_, ?_,
    hitUpdate_pcb st f.toNat m.isWrite, hitUpdate_waitQueue st f.toNat m.isWrite⟩
  · rw [hitUpdate_clock, now_ns_addHitCost, now_ns_addOverhead]
    omega
  · rw [hitUpdate_clock]
    exact addHitCost_nanos_lt (addOverhead_nanos_lt hnorm)
  · rw [hitUpdate_frames_self, hitUpdate_clock]
  · rw [hitUpdate_frames_self, hitUpdate_clock]
  · rw [hitUpdate_frames_self]

/-- Witness for C5: a write hit on page 0 (frame 5) of pid 42. -/
theorem C5_witness :
    ∃ st', receiveRequest exC5St ⟨42, 0, true⟩ = some (.ok st' (some 42)) ∧
      now_ns st'.clock = now_ns exC5St.clock + 1100 ∧
      st'.clock.nanos < 1000000000 ∧
      (st'.frames 5).lastRefSec = st'.clock.secs ∧
      (st'.frames 5).lastRefNano = st'.clock.nanos ∧
      (st'.frames 5).dirty = true ∧
      st'.pcb = exC5St.pcb ∧
      st'.waitQueue = exC5St.waitQueue :=
  C5_hit exC5St ⟨42, 0, true⟩ 0 5 (by decide) (by decide) (by decide)
    (by decide) (by decide) (by decide)

/-- Claim C6: a fault at the head of the wait queue is serviced only when
the elapsed virtual time since the recorded fault time is at least 14 ms,
and at least 15 ms for a write. -/
theorem C6_latency (st : OssState) (slot : Nat)
    (hhead : st.waitQueue.head? = some slot)
    (hs : (serviceHead st).isServiced = true) :
    now_ns st.clock -
        (((st.pcb slot).waitSec : Int) * 1000000000 + ((st.pcb slot).waitNano : Int))
      ≥ 14000000 ∧
    ((st.pcb slot).waitIsWrite = true →
      now_ns st.clock -
          (((st.pcb slot).waitSec : Int) * 1000000000 + ((st.pcb slot).waitNano : Int))
        ≥ 15000000) := by
  cases hq : st.waitQueue with
  | nil =>
    rw [hq] at hhead
    simp at hhead
  | cons s rest =>
    rw [hq] at hhead
    simp only [List.head?_cons, Option.some.injEq] at hhead
    subst hhead
    by_cases hslot : s < MAX_PROC
    · by_cases hguard : now_ns st.clock -
          (((st.pcb s).waitSec : Int) * 1000000000 + ((st.pcb s).waitNano : Int))
        ≥ (if (st.pcb s).waitIsWrite then (15000000 : Int) else 14000000)
      · by_cases hw : (st.pcb s).waitIsWrite = true
        · rw [if_pos hw] at hguard
          exact ⟨by omega, fun _ => hguard⟩
        · rw [if_neg hw] at hguard
          exact ⟨hguard, fun hcontra => absurd hcontra hw⟩
      · exfalso
        have hnr : serviceHead st = .notReady := by
          simp only [serviceHead, hq]
          rw [if_pos hslot, if_neg hguard]
        rw [hnr] at hs
        simp [ServiceOutcome.isServiced] at hs
    · exfalso
      have hub : serviceHead st = .ub := by
        simp only [serviceHead, hq]
        rw [if_neg hslot]
      rw [hub] at hs
      simp [ServiceOutcome.isServiced] at hs

/-- Witness for C6: the read fault of slot 0, recorded at time zero, is
serviced with the clock at 20 ms. -/
theorem C6_witness :
    now_ns exC6St.clock -
        (((exC6St.pcb 0).waitSec : Int) * 1000000000 + ((exC6St.pcb 0).waitNano : Int))
      ≥ 14000000 ∧
    ((exC6St.pcb 0).waitIsWrite = true →
      now_ns exC6St.clock -
          (((exC6St.pcb 0).waitSec : Int) * 1000000000 + ((exC6St.pcb 0).waitNano : Int))
        ≥ 15000000) :=
  C6_latency exC6St 0 (by decide) (by decide)

/-- Claim C3 as amended: the replacer does not only select the frame and
clear the victim owner page-table entry; it itself installs the new page.
On return the chosen frame is occupied, owned by the faulting slot pid,
holds the waited-for page, its dirty bit is the waiting access mode, its
last reference is the current clock, and the slot page table maps the page
to the frame.  The simulation loop afterwards only repeats this
installation with identical values. -/
theorem C3_replacer_installs (st : OssState) (slot : Nat) (st' : OssState) (j : Nat)
    (h : lruReplacement st slot = some (st', j)) :
    (st'.frames j).occupied = true ∧
    (st'.frames j).ownerPid = (st.pcb slot).pid ∧
    (st'.frames j).pageNum = ((st.pcb slot).waitPage : Int) ∧
    (st'.frames j).dirty = (st.pcb slot).waitIsWrite ∧
    (st'.frames j).lastRefSec = st.clock.secs ∧
    (st'.frames j).lastRefNano = st.clock.nanos ∧
    (st'.pcb slot).pageTable (st.pcb slot).waitPage = (j : Int) := by
  obtain ⟨-, -, h3, h4, h5, h6, h7, h8, h9, -, -, -⟩ := lru_some_spec st slot st' j h
  exact ⟨h3, h4, h5, h6, h7, h8, h9⟩

/-- Witness for the amended C3 at the concrete state of the counterexample. -/
theorem C3_witness :
    ∃ st' j, lruReplacement exC3St 0 = some (st', j) ∧
      (st'.frames j).occupied = true ∧
      (st'.frames j).ownerPid = (exC3St.pcb 0).pid ∧
      (st'.frames j).pageNum = ((exC3St.pcb 0).waitPage : Int) ∧
      (st'.pcb 0).pageTable (exC3St.pcb 0).waitPage = (j : Int) := by
  have hs : (lruReplacement exC3St 0).isSome = true := by decide
  obtain ⟨r, hr⟩ := Option.isSome_iff_exists.mp hs
  have hr2 : lruReplacement exC3St 0 = some (r.1, r.2) := by rw [hr]
  obtain ⟨h3, h4, h5, -, -, -, h9⟩ := C3_replacer_installs exC3St 0 r.1 r.2 hr2
  exact ⟨r.1, r.2, hr2, h3, h4, h5, h9⟩

/-- Claim C10: on any occupied slot below 18 whose waited-for page is below
32, in a frame table whose occupied entries hold in-range page numbers, the
replacer is total (no guarded access fails), returns a frame index below
256, and on return that frame is occupied with the slot pid and the
waited-for page. -/
theorem C10_lru_total (st : OssState) (slot : Nat)
    (hslot : slot < 18) (_hocc : (st.pcb slot).occupied = true)
    (hpage : (st.pcb slot).waitPage < 32)
    (hframes : ∀ i, i < 256 → (st.frames i).occupied = true →
      0 ≤ (st.frames i).pageNum ∧ (st.frames i).pageNum < 32) :
    ∃ st' j, lruReplacement st slot = some (st', j) ∧ j < 256 ∧
      (st'.frames j).occupied = true ∧
      (st'.frames j).ownerPid = (st.pcb slot).pid ∧
      (st'.frames j).pageNum = ((st.pcb slot).waitPage : Int) := by
  have hslot2 : slot < MAX_PROC := hslot
  have hpage2 : (st.pcb slot).waitPage < PAGE_COUNT := hpage
  cases hff : findFreeFrame st.frames with
  | some jf =>
    have hjf : jf < 256 := by
      unfold findFreeFrame at hff
      exact (find?_range_first hff).1
    have heq : lruReplacement st slot
        = some (lruInstall st slot (st.pcb slot).waitPage jf, jf) := by
      simp only [lruReplacement]
      rw [if_pos hslot2, hff]
      dsimp only
      rw [if_pos hpage2]
    obtain ⟨-, -, h3, h4, h5, -, -, -, -, -, -, -⟩ := lru_some_spec st slot _ jf heq
    exact ⟨_, jf, heq, hjf, h3, h4, h5⟩
  | none =>
    have hv : victimScan st.frames < 256 := by
      rw [victimScan_eq_vfold]
      exact (vfold_spec st.frames FRAME_NUM).1 (by norm_num [FRAME_NUM])
    have hvo : (st.frames (victimScan st.frames)).occupied = true := by
      have h0 := find?_range_of_none (n := FRAME_NUM)
        (p := fun i => !(st.frames i).occupied) hff (victimScan st.frames) hv
      simpa using h0
    obtain ⟨hb1, hb2⟩ := hframes _ hv hvo
    have hb2c : (st.frames (victimScan st.frames)).pageNum < (PAGE_COUNT : Int) := by
      simpa [PAGE_COUNT] using hb2
    cases hfind : findSlotByPid st.pcb ((st.frames (victimScan st.frames)).ownerPid) with
    | some i =>
      have hex : ∃ st', lruReplacement st slot = some (st', victimScan st.frames) := by
        simp only [lruReplacement]
        rw [if_pos hslot2, hff]
        dsimp only
        rw [hfind]
        dsimp only
        rw [if_pos ⟨hb1, hb2c⟩, if_pos hpage2]
        exact ⟨_, rfl⟩
      obtain ⟨st', heq⟩ := hex
      obtain ⟨-, -, h3, h4, h5, -, -, -, -, -, -, -⟩ := lru_some_spec st slot st' _ heq
      exact ⟨st', _, heq, hv, h3, h4, h5⟩
    | none =>
      have hex : ∃ st', lruReplacement st slot = some (st', victimScan st.frames) := by
        simp only [lruReplacement]
        rw [if_pos hslot2, hff]
        dsimp only
        rw [hfind]
        dsimp only
        rw [if_pos hpage2]
        exact ⟨_, rfl⟩
      obtain ⟨st', heq⟩ := hex
      obtain ⟨-, -, h3, h4, h5, -, -, -, -, -, -, -⟩ := lru_some_spec st slot st' _ heq
      exact ⟨st', _, heq, hv, h3, h4, h5⟩

set_option maxRecDepth 40000 in
/-- Witness for C10: all 256 frames occupied by pid 7 on page 1, slot 0
waiting on page 9; the replacer succeeds. -/
theorem C10_witness :
    ∃ st' j, lruReplacement exC10St 0 = some (st', j) ∧ j < 256 ∧
      (st'.frames j).occupied = true ∧
      (st'.frames j).ownerPid = (exC10St.pcb 0).pid ∧
      (st'.frames j).pageNum = ((exC10St.pcb 0).waitPage : Int) :=
  C10_lru_total exC10St 0 (by decide) (by decide) (by decide)
    (by decide)

/-- Claim C7: when the replacer runs and a free frame exists, the first free
frame (lowest index) is chosen; otherwise the victim is the frame with the
smallest composed last-reference time, tie-broken by lowest index, and the
page-table entry of the victim owner (found by pid, unless it coincides with
the faulting slot and page) is set to -1. -/
theorem C7_lru_selection (st : OssState) (slot : Nat)
    (hslot : slot < 18) (hpage : (st.pcb slot).waitPage < 32) :
    ((∃ i, i < 256 ∧ (st.frames i).occupied = false) →
      ∃ st' j, lruReplacement st slot = some (st', j) ∧
        (st.frames j).occupied = false ∧
        (∀ i, i < j → (st.frames i).occupied = true)) ∧
    ((∀ i, i < 256 → (st.frames i).occupied = true) →
     (∀ i, i < 256 → 0 ≤ (st.frames i).pageNum ∧ (st.frames i).pageNum < 32) →
      ∃ st', lruReplacement st slot = some (st', victimScan st.frames) ∧
        (∀ i, i < 256 →
          lastRefNs (st.frames (victimScan st.frames)) ≤ lastRefNs (st.frames i)) ∧
        (∀ i, i < victimScan st.frames →
          lastRefNs (st.frames (victimScan st.frames)) < lastRefNs (st.frames i)) ∧
        (∀ k, findSlotByPid st.pcb ((st.frames (victimScan st.frames)).ownerPid) = some k →
          (k ≠ slot ∨ (st.frames (victimScan st.frames)).pageNum
              ≠ ((st.pcb slot).waitPage : Int)) →
          (st'.pcb k).pageTable (st.frames (victimScan st.frames)).pageNum.toNat = -1)) := by
  have hslot2 : slot < MAX_PROC := hslot
  have hpage2 : (st.pcb slot).waitPage < PAGE_COUNT := hpage
  constructor
  · rintro ⟨i0, hi0, hfree0⟩
    have hsome : (findFreeFrame st.frames).isSome := by
      unfold findFreeFrame
      refine List.find?_isSome.mpr ⟨i0, List.mem_range.mpr hi0, ?_⟩
      simp [hfree0]
    obtain ⟨jf, hff⟩ := Option.isSome_iff_exists.mp hsome
    have hff2 : (List.range FRAME_NUM).find? (fun i => !(st.frames i).occupied) = some jf := hff
    obtain ⟨hjf, hpj, hfirst⟩ := find?_range_first hff2
    have heq : lruReplacement st slot
        = some (lruInstall st slot (st.pcb slot).waitPage jf, jf) := by
      simp only [lruReplacement]
      rw [if_pos hslot2, hff]
      dsimp only
      rw [if_pos hpage2]
    refine ⟨_, jf, heq, by simpa using hpj, ?_⟩
    intro i hi
    have := hfirst i hi
    simpa using this
  · intro hall hbnds
    have hff : findFreeFrame st.frames = none := by
      unfold findFreeFrame
      refine List.find?_eq_none.mpr ?_
      intro x hx
      simp [hall x (List.mem_range.mp hx)]
    have hv : victimScan st.frames < 256 := by
      rw [victimScan_eq_vfold]
      exact (vfold_spec st.frames FRAME_NUM).1 (by norm_num [FRAME_NUM])
    obtain ⟨hb1, hb2⟩ := hbnds _ hv
    have hb2c : (st.frames (victimScan st.frames)).pageNum < (PAGE_COUNT : Int) := by
      simpa [PAGE_COUNT] using hb2
    have hmin : ∀ i, i < 256 →
        lastRefNs (st.frames (victimScan st.frames)) ≤ lastRefNs (st.frames i) := by
      rw [victimScan_eq_vfold]
      exact (vfold_spec st.frames FRAME_NUM).2.1
    have hfirst : ∀ i, i < victimScan st.frames →
        lastRefNs (st.frames (victimScan st.frames)) < lastRefNs (st.frames i) := by
      rw [victimScan_eq_vfold]
      exact fun i hi => (vfold_spec st.frames FRAME_NUM).2.2 i hi
    cases hfind : findSlotByPid st.pcb ((st.frames (victimScan st.frames)).ownerPid) with
    | some i =>
      have heq : lruReplacement st slot
          = some (lruInstall
              (clearVictim st i (st.frames (victimScan st.frames)).pageNum)
              slot (st.pcb slot).waitPage (victimScan st.frames),
            victimScan st.frames) := by
        simp only [lruReplacement]
        rw [if_pos hslot2, hff]
        dsimp only
        rw [hfind]
        dsimp only
        rw [if_pos ⟨hb1, hb2c⟩, if_pos hpage2]
      refine ⟨_, heq, hmin, hfirst, ?_⟩
      intro k hk hdisj
      injection hk with hik
      subst hik
      by_cases hks : i = slot
      · have hne : (st.frames (victimScan st.frames)).pageNum.toNat
            ≠ (st.pcb slot).waitPage := by
          rcases hdisj with hd | hd
          · exact absurd hks hd
          · intro hcontra
            apply hd
            rw [← hcontra, Int.toNat_of_nonneg hb1]
        rw [hks]
        simp only [lruInstall]
        rw [upd_self]
        show (upd ((clearVictim st slot _).pcb slot).pageTable
          ((st.pcb slot).waitPage) _ _) = -1
        rw [upd_ne _ _ _ hne]
        exact clearVictim_pageTable_self st slot _
      · rw [lruInstall_pcb_ne _ _ _ _ hks]
        exact clearVictim_pageTable_self st i _
    | none =>
      have heq : lruReplacement st slot
          = some (lruInstall st slot (st.pcb slot).waitPage (victimScan st.frames),
            victimScan st.frames) := by
        simp only [lruReplacement]
        rw [if_pos hslot2, hff]
        dsimp only
        rw [hfind]
        dsimp only
        rw [if_pos hpage2]
      refine ⟨_, heq, hmin, hfirst, ?_⟩
      intro k hk
      exact Option.noConfusion hk

set_option maxRecDepth 40000 in
/-- Witness for C7, applying both sides: the free-frame state picks the
first free frame, and the fully occupied state evicts frame 3 (the unique
minimum) and clears page 1 of the owner in slot 1. -/
theorem C7_witness :
    (∃ st' j, lruReplacement exC7Free 0 = some (st', j) ∧
      (exC7Free.frames j).occupied = false ∧
      (∀ i, i < j → (exC7Free.frames i).occupied = true)) ∧
    (∃ st', lruReplacement exC7Full 0 = some (st', victimScan exC7Full.frames) ∧
      (∀ i, i < 256 →
        lastRefNs (exC7Full.frames (victimScan exC7Full.frames))
          ≤ lastRefNs (exC7Full.frames i)) ∧
      (∀ i, i < victimScan exC7Full.frames →
        lastRefNs (exC7Full.frames (victimScan exC7Full.frames))
          < lastRefNs (exC7Full.frames i)) ∧
      (∀ k, findSlotByPid exC7Full.pcb
            ((exC7Full.frames (victimScan exC7Full.frames)).ownerPid) = some k →
        (k ≠ 0 ∨ (exC7Full.frames (victimScan exC7Full.frames)).pageNum
            ≠ ((exC7Full.pcb 0).waitPage : Int)) →
        (st'.pcb k).pageTable
            (exC7Full.frames (victimScan exC7Full.frames)).pageNum.toNat = -1)) :=
  ⟨(C7_lru_selection exC7Free 0 (by decide) (by decide)).1 ⟨2, by decide, by decide⟩,
   (C7_lru_selection exC7Full 0 (by decide) (by decide)).2
     (by decide) (by decide)⟩

theorem queueInv_of_eq (st st' : OssState) (hq : st'.waitQueue = st.waitQueue)
    (hw : ∀ s, (st'.pcb s).waiting = (st.pcb s).waiting)
    (h : queueInv st) : queueInv st' := by
  obtain ⟨hnd, hlt, hiff⟩ := h
  refine ⟨hq ▸ hnd, ?_, ?_⟩
  · intro s hs
    exact hlt s (hq ▸ hs)
  · intro s hs
    rw [hq, hw s]
    exact hiff s hs

theorem spawnChild_waitQueue (st : OssState) (cp : Int) :
    (spawnChild st cp).waitQueue = st.waitQueue := by
  simp only [spawnChild]
  split <;> rfl

theorem spawnChild_waiting (st : OssState) (cp : Int) (s : Nat) :
    ((spawnChild st cp).pcb s).waiting = (st.pcb s).waiting := by
  simp only [spawnChild]
  split
  · rename_i i hfind
    by_cases hs : s = i
    · subst hs
      show (upd st.pcb s _ s).waiting = _
      rw [upd_self]
    · show (upd st.pcb i _ s).waiting = _
      rw [upd_ne _ _ _ hs]
  · rfl

theorem reapOne_shape (st : OssState) (pid : Int) (st' : OssState)
    (h : reapOne st pid = some st') :
    st'.waitQueue = st.waitQueue ∧
    ∃ indx, findSlotByPid st.pcb pid = some indx ∧
      (∀ s, s ≠ indx → st'.pcb s = st.pcb s) ∧
      (st'.pcb indx).waiting = false := by
  simp only [reapOne] at h
  cases hfind : findSlotByPid st.pcb pid with
  | none =>
    rw [hfind] at h
    exact Option.noConfusion h
  | some indx =>
    rw [hfind] at h
    dsimp only at h
    injection h with h'
    subst h'
    refine ⟨rfl, indx, rfl, ?_, ?_⟩
    · intro s hs
      dsimp only
      rw [upd_ne _ _ _ hs]
      rw [upd_ne _ _ _ hs]
    · dsimp only
      simp only [upd_self]

theorem faultRecord_waitQueue (st : OssState) (slot page : Nat) (isW : Bool) :
    (faultRecord st slot page isW).waitQueue = st.waitQueue ++ [slot] := by
  simp only [faultRecord]

theorem faultRecord_waiting_self (st : OssState) (slot page : Nat) (isW : Bool) :
    ((faultRecord st slot page isW).pcb slot).waiting = true := by
  simp only [faultRecord, upd_self]

theorem faultRecord_waiting_ne (st : OssState) (slot page : Nat) (isW : Bool)
    {s : Nat} (hs : s ≠ slot) :
    ((faultRecord st slot page isW).pcb s).waiting = (st.pcb s).waiting := by
  simp only [faultRecord]
  rw [upd_ne _ _ _ hs]

theorem serviceInstall_waitQueue (st1 : OssState) (slot page fr : Nat) (isW : Bool) :
    (serviceInstall st1 slot page fr isW).waitQueue = st1.waitQueue := by
  simp only [serviceInstall]
  split <;> rfl

theorem serviceInstall_waiting_self (st1 : OssState) (slot page fr : Nat) (isW : Bool) :
    ((serviceInstall st1 slot page fr isW).pcb slot).waiting = false := by
  simp only [serviceInstall]
  split <;> simp only [upd_self]

theorem serviceInstall_waiting_ne (st1 : OssState) (slot page fr : Nat) (isW : Bool)
    {s : Nat} (hs : s ≠ slot) :
    ((serviceInstall st1 slot page fr isW).pcb s).waiting = (st1.pcb s).waiting := by
  simp only [serviceInstall]
  split <;> (dsimp only; rw [upd_ne _ _ _ hs])

/-- Claim C1 as amended: the queue invariant (each slot at most once in the
wait queue, queued slots are legal indices, and a slot is queued exactly
when its waiting flag is set) is preserved by every table-mutating step of a
loop iteration - tick, spawn, request receipt from a non-waiting sender,
head-of-queue fault service, and reap of a worker that is not waiting.  The
reap step itself never removes a slot from the queue (it only clears the
waiting flag), so reaping a waiting worker would leave its slot behind in
the queue; the worker protocol, under which a worker blocked on a fault
reply cannot terminate, is what rules that case out. -/
theorem C1_queue_invariant (st st' : OssState)
    (hinv : queueInv st) (hstep : LoopStep st st') : queueInv st' := by
  obtain ⟨hnd, hlt, hiff⟩ := hinv
  cases hstep with
  | tick =>
    exact ⟨hnd, hlt, hiff⟩
  | reap _ pid hre hnw =>
    obtain ⟨hq, indx, hfind, hoth, hwi⟩ := reapOne_shape st pid st' hre
    refine queueInv_of_eq st st' hq ?_ ⟨hnd, hlt, hiff⟩
    intro s
    by_cases hs : s = indx
    · subst hs
      rw [hwi, hnw s hfind]
    · rw [hoth s hs]
  | spawn childPid =>
    exact queueInv_of_eq st _ (spawnChild_waitQueue st childPid)
      (spawnChild_waiting st childPid) ⟨hnd, hlt, hiff⟩
  | receive m out hrc hnw =>
    simp only [receiveRequest] at hrc
    by_cases hpage : m.address / 1024 ≥ PAGE_COUNT
    · rw [if_pos hpage] at hrc
      injection hrc with h'
      subst h'
      exact ⟨hnd, hlt, hiff⟩
    rw [if_neg hpage] at hrc
    cases hfind : findSlotByPid st.pcb m.pid with
    | none =>
      rw [hfind] at hrc
      exact Option.noConfusion hrc
    | some slot =>
      rw [hfind] at hrc
      dsimp only at hrc
      by_cases hfr : (st.pcb slot).pageTable (m.address / 1024) ≠ -1
      · rw [if_pos hfr] at hrc
        by_cases hb : 0 ≤ (st.pcb slot).pageTable (m.address / 1024) ∧
            (st.pcb slot).pageTable (m.address / 1024) < (FRAME_NUM : Int)
        · rw [if_pos hb] at hrc
          injection hrc with h'
          subst h'
          exact queueInv_of_eq st _
            (by simp only [ReqOutcome.state, hitUpdate_waitQueue])
            (fun s => by simp only [ReqOutcome.state, hitUpdate_pcb]) ⟨hnd, hlt, hiff⟩
        · rw [if_neg hb] at hrc
          exact Option.noConfusion hrc
      · rw [if_neg hfr] at hrc
        injection hrc with h'
        subst h'
        have hspec := findSlotByPid_spec hfind
        have hwfalse : (st.pcb slot).waiting = false := hnw slot hfind
        have hnotin : slot ∉ st.waitQueue := by
          intro hin
          have hcontra := (hiff slot (List.mem_range.mpr hspec.1)).mp hin
          rw [hwfalse] at hcontra
          exact Bool.noConfusion hcontra
        show queueInv (faultRecord st slot (m.address / 1024) m.isWrite)
        refine ⟨?_, ?_, ?_⟩
        · rw [faultRecord_waitQueue]
          have h2 := List.Nodup.concat hnotin hnd
          simpa [List.concat_eq_append] using h2
        · intro s hs
          rw [faultRecord_waitQueue] at hs
          rcases List.mem_append.mp hs with h | h
          · exact hlt s h
          · rw [List.mem_singleton] at h
            subst h
            exact hspec.1
        · intro s hsr
          rw [faultRecord_waitQueue]
          by_cases hss : s = slot
          · subst hss
            constructor
            · intro _
              exact faultRecord_waiting_self st s _ _
            · intro _
              exact List.mem_append.mpr (Or.inr (by simp))
          · rw [faultRecord_waiting_ne st slot (m.address / 1024) m.isWrite hss]
            have hmem : s ∈ st.waitQueue ++ [slot] ↔ s ∈ st.waitQueue := by
              simp [List.mem_append, hss]
            rw [hmem]
            exact hiff s hsr
  | service _ frame replyPid hsv =>
    simp only [serviceHead] at hsv
    cases hq : st.waitQueue with
    | nil =>
      rw [hq] at hsv
      exact ServiceOutcome.noConfusion hsv
    | cons slot rest =>
      rw [hq] at hsv
      dsimp only at hsv
      by_cases hslot : slot < MAX_PROC
      swap
      · rw [if_neg hslot] at hsv
        exact ServiceOutcome.noConfusion hsv
      rw [if_pos hslot] at hsv
      by_cases hguard : now_ns st.clock -
          (((st.pcb slot).waitSec : Int) * 1000000000 + ((st.pcb slot).waitNano : Int))
        ≥ (if (st.pcb slot).waitIsWrite then (15000000 : Int) else 14000000)
      swap
      · rw [if_neg hguard] at hsv
        exact ServiceOutcome.noConfusion hsv
      rw [if_pos hguard] at hsv
      cases hlru : lruReplacement { st with waitQueue := rest } slot with
      | none =>
        rw [hlru] at hsv
        exact ServiceOutcome.noConfusion hsv
      | some pr =>
        obtain ⟨st1, fr⟩ := pr
        rw [hlru] at hsv
        dsimp only at hsv
        by_cases hpage : (st.pcb slot).waitPage < PAGE_COUNT
        swap
        · rw [if_neg hpage] at hsv
          exact ServiceOutcome.noConfusion hsv
        rw [if_pos hpage] at hsv
        injection hsv with h1 h2 h3
        subst h1
        obtain ⟨-, -, -, -, -, -, -, -, -, -, hq1, hpres⟩ :=
          lru_some_spec { st with waitQueue := rest } slot st1 fr hlru
        have hndr : rest.Nodup ∧ slot ∉ rest := by
          rw [hq] at hnd
          exact ⟨(List.nodup_cons.mp hnd).2, (List.nodup_cons.mp hnd).1⟩
        refine ⟨?_, ?_, ?_⟩
        · rw [serviceInstall_waitQueue, hq1]
          exact hndr.1
        · intro s hs
          rw [serviceInstall_waitQueue, hq1] at hs
          exact hlt s (by rw [hq]; exact List.mem_cons_of_mem slot hs)
        · intro s hsr
          rw [serviceInstall_waitQueue, hq1]
          by_cases hss : s = slot
          · subst hss
            constructor
            · intro hin
              exact absurd hin hndr.2
            · intro hw
              rw [serviceInstall_waiting_self] at hw
              exact Bool.noConfusion hw
          · rw [serviceInstall_waiting_ne st1 slot _ fr _ hss, (hpres s).1]
            have hmem : s ∈ rest ↔ s ∈ st.waitQueue := by
              rw [hq]
              simp [List.mem_cons, hss]
            rw [hmem]
            exact hiff s hsr

/-- Witness for the amended C1: reaping the non-waiting worker with pid 50
in slot 0 preserves the queue invariant. -/
theorem C1_witness : queueInv ((reapOne exC1ReapSt 50).getD exC1ReapSt) := by
  have hre : reapOne exC1ReapSt 50 = some ((reapOne exC1ReapSt 50).getD exC1ReapSt) := by
    rfl
  refine C1_queue_invariant exC1ReapSt _ ?_ (LoopStep.reap _ _ 50 hre ?_)
  · unfold queueInv
    refine ⟨by decide, by decide, by decide⟩
  · intro k hk
    have h0 : findSlotByPid exC1ReapSt.pcb 50 = some 0 := by decide
    rw [h0] at hk
    injection hk with h1
    subst h1
    decide

end Paging
